import Mathlib

/-!
Shallow embedding of parts of the TiCDC changefeed maintainer:
the GC safepoint service (pkg/txnutil/gc), the gc manager, the balance
scheduler of the maintainer, span key comparison (pkg/common/span_op.go)
and the changefeed-resume CLI validation.

Conventions of the embedding:
* Go `uint64` values are `Nat` together with explicit `% UINT64_MOD`
  wherever Go arithmetic can wrap.
* Wall-clock instants and durations are `Nat` nanoseconds; `time.Since(t)`
  at instant `now` is the truncated difference `now - t` (the Go runtime
  guarantees monotonic instants, so `now` is never before a stored instant).
* Fallible remote calls (the PD safepoint push) are passed in as an
  `Except Unit Nat` argument holding the value the call would return.
-/

/-- Modulus of Go uint64 arithmetic. -/
def UINT64_MOD : Nat := 2 ^ 64

/-- One second, in nanoseconds (Go `time.Second`). -/
def nsPerSecond : Nat := 1000000000

/-! ### pkg/txnutil/gc/gc_service.go -/

/-- Result of `EnsureChangefeedStartTsSafety`. `tracedErr` stands for the
`errors.Trace(err)` return when the safepoint push itself failed;
`startTsBeforeGC` for `errors.ErrStartTsBeforeGC`; `ok` for the `nil` return. -/
inductive EnsureResult where
  | tracedErr
  | startTsBeforeGC
  | ok
  deriving DecidableEq, Repr

/-- Embedding of `EnsureChangefeedStartTsSafety` (gc_service.go lines 39-69).
`pushResult` is the outcome of `SetServiceGCSafepoint`: `.ok minServiceGCTs`
when the push to PD succeeded, `.error ()` when it failed. The guard
`startTs > 0 && startTs < minServiceGCTs+1` is computed in uint64 arithmetic,
hence the `% UINT64_MOD` on the increment. -/
def EnsureChangefeedStartTsSafety (pushResult : Except Unit Nat) (startTs : Nat) :
    EnsureResult :=
  match pushResult with
  | .error _ => .tracedErr
  | .ok minServiceGCTs =>
      if 0 < startTs ∧ startTs < (minServiceGCTs + 1) % UINT64_MOD then
        .startTsBeforeGC
      else
        .ok

/-! ### pkg/common/span_op.go -/

/-- Embedding of Go `bytes.Compare`: lexicographic order on byte slices,
a proper prefix is smaller. Bytes are modelled as `Nat`. -/
def bytesCompare : List Nat → List Nat → Int
  | [], [] => 0
  | [], _ :: _ => -1
  | _ :: _, [] => 1
  | a :: as, b :: bs =>
      if a < b then -1
      else if b < a then 1
      else bytesCompare as bs

/-- Embedding of `StartCompare` (span_op.go lines 97-113): the empty start
key acts as negative infinity. -/
def StartCompare (lhs rhs : List Nat) : Int :=
  if lhs.length = 0 ∧ rhs.length = 0 then 0
  else if lhs.length = 0 then -1
  else if rhs.length = 0 then 1
  else bytesCompare lhs rhs

/-- Embedding of `EndCompare` (span_op.go lines 117-133): the empty end
key acts as positive infinity. -/
def EndCompare (lhs rhs : List Nat) : Int :=
  if lhs.length = 0 ∧ rhs.length = 0 then 0
  else if lhs.length = 0 then 1
  else if rhs.length = 0 then -1
  else bytesCompare lhs rhs

/-! ### gc manager (src/unnamed/part_003, package gc) -/

/-- Minimum interval between safepoint updates (`gcSafepointUpdateInterval`,
1 minute), in nanoseconds. -/
def gcSafepointUpdateInterval : Nat := 60 * nsPerSecond

/-- Mutable fields of `gcManager` together with its configured TTL.
`gcTTL` is in seconds, as in the Go server config; the instants are
nanoseconds. -/
structure GcManagerState where
  gcTTL : Nat
  lastUpdatedTime : Nat
  lastSucceededTime : Nat
  lastSafePointTs : Nat
  isTiCDCBlockGC : Bool
  deriving DecidableEq, Repr

/-- Errors surfaced by the gc manager. -/
inductive GcError where
  | errUpdateServiceSafepointFailed
  | errGCTTLExceeded
  | errSnapshotLostByGC
  deriving DecidableEq, Repr

/-- Outcome of one call to `TryUpdateGCSafePoint`: the state after the call,
the returned error (none for `nil`), and whether `SetServiceGCSafepoint`
was reached. -/
structure GcUpdateOutcome where
  state : GcManagerState
  err : Option GcError
  pushed : Bool
  deriving DecidableEq, Repr

/-- Embedding of `gcManager.TryUpdateGCSafePoint` (part_003 lines 73-117).
`now` is the instant of the call; `pushResult` is what
`SetServiceGCSafepoint` returns when reached (`.ok actual` or `.error ()`). -/
def TryUpdateGCSafePoint (m : GcManagerState) (now : Nat) (checkpointTs : Nat)
    (forceUpdate : Bool) (pushResult : Except Unit Nat) : GcUpdateOutcome :=
  if now - m.lastUpdatedTime < gcSafepointUpdateInterval ∧ forceUpdate = false then
    { state := m, err := none, pushed := false }
  else
    let m1 := { m with lastUpdatedTime := now }
    match pushResult with
    | .error _ =>
        if nsPerSecond * m.gcTTL ≤ now - m1.lastSucceededTime then
          { state := m1, err := some .errUpdateServiceSafepointFailed, pushed := true }
        else
          { state := m1, err := none, pushed := true }
    | .ok actual =>
        { state :=
            { m1 with
              isTiCDCBlockGC := actual = checkpointTs
              lastSafePointTs := actual
              lastSucceededTime := now }
          err := none
          pushed := true }

/-- Embedding of `oracle.ExtractPhysical`: the physical-time milliseconds
stored in the upper bits of a TSO. -/
def extractPhysical (ts : Nat) : Nat := ts / 2 ^ 18

/-- The `gcSafepointUpperBound := checkpointTs - 1` computation of
`CheckStaleCheckpointTs`, in uint64 arithmetic (wraps at `checkpointTs = 0`). -/
def gcSafepointUpperBound (checkpointTs : Nat) : Nat :=
  (checkpointTs + UINT64_MOD - 1) % UINT64_MOD

/-- Embedding of `gcManager.CheckStaleCheckpointTs` (part_003 lines 119-146).
`pdTimeNs` is `pdClock.CurrentTime()` in nanoseconds since the epoch;
`oracle.GetTimeFromTS` of a TSO is its physical milliseconds, converted to
nanoseconds here, and the subtraction is signed as in Go `time.Sub`. -/
def CheckStaleCheckpointTs (m : GcManagerState) (pdTimeNs : Int)
    (checkpointTs : Nat) : Option GcError :=
  let bound := gcSafepointUpperBound checkpointTs
  if m.isTiCDCBlockGC then
    if (m.gcTTL : Int) * (nsPerSecond : Int) <
        pdTimeNs - (extractPhysical bound : Int) * 1000000 then
      some .errGCTTLExceeded
    else
      none
  else
    if bound < m.lastSafePointTs then
      some .errSnapshotLostByGC
    else
      none

/-! ### cmd/cdc/cli/cli_changefeed_resume.go -/

/-- Embedding of `strings.ToLower` restricted to what the comparison with
the ASCII literal "now" needs: ASCII lowercasing (no non-ASCII rune
lowercases to an ASCII letter, so this agrees with Go on that comparison). -/
def strToLower (s : String) : String := ⟨s.data.map Char.toLower⟩

/-- Embedding of `strconv.ParseUint(s, 10, 64)` as a partial value: `some v`
exactly when `s` is a nonempty all-digit string whose value fits in uint64;
`none` for every input on which Go returns a non-nil error. -/
def parseUint64 (s : String) : Option Nat :=
  if s.length = 0 then none
  else if s.data.all (fun c => c.isDigit) then
    let v := s.data.foldl (fun acc c => acc * 10 + (c.toNat - 48)) 0
    if v < UINT64_MOD then some v else none
  else none

/-- Embedding of `oracle.ComposeTS(physical, logical)`: the physical
milliseconds shifted left by 18 bits plus the logical counter, as uint64.
Both arguments are the nonnegative values carried by `v2.Tso`. -/
def composeTS (physical logical : Nat) : Nat :=
  (physical * 2 ^ 18 + logical) % UINT64_MOD

/-- Result of the `--overwrite-checkpoint-ts` part of
`resumeChangefeedOptions.validateParams`: `skip` when the flag is absent
(nil return, no checkpoint forced); `accepted ts` when the call returns nil
after storing `o.checkpointTs = ts`; the two error constructors stand for
`ErrCliInvalidCheckpointTs` and `ErrCliCheckpointTsIsInFuture`. -/
inductive ResumeCheck where
  | skip
  | accepted (checkpointTs : Nat)
  | errCliInvalidCheckpointTs
  | errCliCheckpointTsIsInFuture
  deriving DecidableEq, Repr

/-- Embedding of `validateParams` (cli_changefeed_resume.go lines 154-193)
after the changefeed info and the TSO have been fetched: `overwrite` is the
`--overwrite-checkpoint-ts` flag value, `tsoTimestamp`/`tsoLogicTime` the
queried `tso.Timestamp` and `tso.LogicTime`. -/
def validateParams (overwrite : String) (tsoTimestamp tsoLogicTime : Nat) :
    ResumeCheck :=
  if overwrite.length = 0 then .skip
  else if strToLower overwrite = "now" then
    .accepted (composeTS tsoTimestamp tsoLogicTime)
  else
    match parseUint64 overwrite with
    | none => .errCliInvalidCheckpointTs
    | some checkpointTs =>
        if checkpointTs = 0 then .errCliInvalidCheckpointTs
        else if composeTS tsoTimestamp tsoLogicTime < checkpointTs then
          .errCliCheckpointTsIsInFuture
        else .accepted checkpointTs

/-! ### balance scheduler (src/unnamed/part_001, package scheduler)

The scheduler calls two helpers from `pkg/scheduler` whose bodies are not
part of this tree: `CheckBalanceStatus`, which returns the number of spans
that should move for a node-to-size map, and `Balance`, which emits up to
`batchSize` `MoveDispatcher` operators and returns how many it emitted.
Their results are supplied as environment data (`GroupSched.check` and
`GroupSched.balanceMoves`); `Balance`'s return value is identified with the
length of its emitted move list. The span/operator controllers and the
node manager are likewise read-only inputs here
(`ExecEnv.operatorSize`, `ExecEnv.absentSize`, `GlobalEnv`). -/

/-- One emitted `MoveDispatcher` operator: the span replication being moved
and the destination node, both as numeric identifiers. -/
structure Move where
  task : Nat
  dest : Nat
  deriving DecidableEq, Repr

/-- Environment of one group in `schedulerGroup`: the value
`CheckBalanceStatus(GetTaskSizePerNodeByGroup(group), nodes)` and the moves
that `Balance(batch, random, nodes, replicas, doMove)` performs on it. -/
structure GroupSched where
  check : Int
  balanceMoves : List Move
  deriving Repr

/-- Environment of `schedulerGlobal`: `numNodes` is `len(nodes)`;
`checkTotal` is `CheckBalanceStatus(GetTaskSizePerNode(), nodes)`;
`groupNodeTasks` and `valid` are the two results of
`GetImbalanceGroupNodeTask(nodes)`, each group listed as its
(node id, task) entries in the (arbitrary) Go map iteration order;
`addOK task dest` tells whether `operatorController.AddOperator` accepts the
move operator built by `doMove`. -/
structure GlobalEnv where
  numNodes : Nat
  checkTotal : Int
  groupNodeTasks : List (List (Nat × Option Nat))
  valid : Bool
  addOK : Nat → Nat → Bool

/-- Value of a Go `map[node.ID]int` at a key, 0 when absent. -/
def alGet (m : List (Nat × Nat)) (k : Nat) : Nat :=
  match m with
  | [] => 0
  | (k2, v) :: rest => if k2 = k then v else alGet rest k

/-- Go `m[k]++` on a `map[node.ID]int` (creates the entry when absent). -/
def alInc (m : List (Nat × Nat)) (k : Nat) : List (Nat × Nat) :=
  match m with
  | [] => [(k, 1)]
  | (k2, v) :: rest => if k2 = k then (k2, v + 1) :: rest else (k2, v) :: alInc rest k

/-- Go `m[k]--` on a `map[node.ID]int`. In `schedulerGlobal` the key is
always a victim node, present with a positive count, so the absent case is
never reached and is left as the unchanged map. -/
def alDec (m : List (Nat × Nat)) (k : Nat) : List (Nat × Nat) :=
  match m with
  | [] => []
  | (k2, v) :: rest => if k2 = k then (k2, v - 1) :: rest else (k2, v) :: alDec rest k

/-- The first loop of `schedulerGlobal` (part_001 lines 138-147): count the
non-nil tasks and build `sizePerNode`. -/
def buildSizePerNode (groups : List (List (Nat × Option Nat))) :
    Nat × List (Nat × Nat) :=
  groups.foldl
    (fun acc nodeTasks =>
      nodeTasks.foldl
        (fun acc2 entry =>
          match entry.2 with
          | some _ => (acc2.1 + 1, alInc acc2.2 entry.1)
          | none => acc2)
        acc)
    (0, [])

/-- Lookup of `nodeTasks[old]` in a group entry list (a Go
`map[node.ID]*SpanReplication`). -/
def taskAt (nodeTasks : List (Nat × Option Nat)) (id : Nat) : Option Nat :=
  match nodeTasks with
  | [] => none
  | (k, t) :: rest => if k = id then t else taskAt rest id

/-- The per-group move loop of `schedulerGlobal` (part_001 lines 171-182):
walk `availableNodes`, pairing each with the victim at index `next`; a
successful `doMove` updates `sizePerNode` and advances both counters.
Returns the updated `sizePerNode` and the moves emitted so far. The
`taskAt = none` branch is unreachable (victims hold a task by construction)
and performs no move. -/
def globalMoveLoop (addOK : Nat → Nat → Bool) (nodeTasks : List (Nat × Option Nat))
    (victims : List Nat) : List Nat → Nat → List (Nat × Nat) → List Move →
    List (Nat × Nat) × List Move
  | [], _, size, acc => (size, acc)
  | nw :: rest, next, size, acc =>
      if victims.length ≤ next then (size, acc)
      else
        let old := victims.getD next 0
        match taskAt nodeTasks old with
        | some t =>
            if addOK t nw then
              globalMoveLoop addOK nodeTasks victims rest (next + 1)
                (alInc (alDec size old) nw) (acc ++ [⟨t, nw⟩])
            else
              globalMoveLoop addOK nodeTasks victims rest next size acc
        | none => globalMoveLoop addOK nodeTasks victims rest next size acc

/-- The outer move loop of `schedulerGlobal` (part_001 lines 160-183): for
each group, split its nodes into `availableNodes` and `victims` against the
current `sizePerNode`, then run the move loop, threading `sizePerNode`. -/
def globalGroupsLoop (addOK : Nat → Nat → Bool) (limit : Nat) :
    List (List (Nat × Option Nat)) → List (Nat × Nat) → List Move → List Move
  | [], _, acc => acc
  | nodeTasks :: rest, size, acc =>
      let availableNodes := nodeTasks.filterMap
        (fun entry =>
          if entry.2 = none ∧ alGet size entry.1 < limit then some entry.1 else none)
      let victims := nodeTasks.filterMap
        (fun entry =>
          if entry.2 ≠ none ∧ limit < alGet size entry.1 then some entry.1 else none)
      let out := globalMoveLoop addOK nodeTasks victims availableNodes 0 size acc
      globalGroupsLoop addOK limit rest out.1 out.2

/-- Embedding of `balanceScheduler.schedulerGlobal` (part_001 lines 124-186),
returning the `MoveDispatcher` operators it emits; the Go return value
`moved` is the length of this list. `lowerLimitPerNode` is
`int(math.Floor(float64(totalTasks)/float64(len(nodes))))`, which for the
machine-representable sizes involved is natural-number division. -/
def schedulerGlobal (env : GlobalEnv) : List Move :=
  if env.checkTotal ≤ 0 then []
  else if env.valid = false then []
  else
    let built := buildSizePerNode env.groupNodeTasks
    let lowerLimitPerNode := built.1 / env.numNodes
    let limitCnt := (built.2.filter (fun e => e.2 = lowerLimitPerNode)).length
    if limitCnt = env.numNodes then []
    else globalGroupsLoop env.addOK lowerLimitPerNode env.groupNodeTasks built.2 []

/-- The loop of `schedulerGroup` (part_001 lines 107-119): groups whose
balance check is non-positive are skipped; otherwise `Balance` runs and the
loop breaks once the number moved reaches `batch`. The Go counter `moved`
is the length of the accumulated move list. -/
def groupLoop (batch : Nat) : List GroupSched → List Move → List Move
  | [], acc => acc
  | g :: rest, acc =>
      if g.check ≤ 0 then groupLoop batch rest acc
      else
        let acc2 := acc ++ g.balanceMoves
        if batch ≤ acc2.length then acc2
        else groupLoop batch rest acc2

/-- Embedding of `balanceScheduler.schedulerGroup` (part_001 lines 105-121),
returning the moves emitted across groups. -/
def schedulerGroup (batch : Nat) (groups : List GroupSched) : List Move :=
  groupLoop batch groups []

/-- The fields of `balanceScheduler` that `Execute` reads and writes. -/
structure ExecState where
  batchSize : Nat
  forceBalance : Bool
  lastRebalanceTime : Nat
  checkBalanceInterval : Nat
  deriving DecidableEq, Repr

/-- Inputs of one `Execute` tick: the current instant, the sizes reported
by the operator and span controllers, and the environments of the two
scheduling phases. -/
structure ExecEnv where
  now : Nat
  operatorSize : Nat
  absentSize : Nat
  groups : List GroupSched
  globalEnv : GlobalEnv

/-- Outcome of one `Execute` tick: the updated scheduler state, the
`MoveDispatcher` operators emitted, whether the tick reached the scheduling
phases at all, whether the global phase ran, and the returned next check
time. -/
structure ExecResult where
  state : ExecState
  moves : List Move
  ranSchedule : Bool
  ranGlobal : Bool
  nextCheck : Nat

/-- Embedding of `balanceScheduler.Execute` (part_001 lines 72-99), with the
test-only failpoint omitted. -/
def Execute (s : ExecState) (env : ExecEnv) : ExecResult :=
  if s.forceBalance = false ∧ env.now - s.lastRebalanceTime < s.checkBalanceInterval then
    { state := s, moves := [], ranSchedule := false, ranGlobal := false
      nextCheck := s.lastRebalanceTime + s.checkBalanceInterval }
  else if 0 < env.operatorSize ∨ 0 < env.absentSize then
    { state := s, moves := [], ranSchedule := false, ranGlobal := false
      nextCheck := env.now + s.checkBalanceInterval }
  else
    let groupMoves := schedulerGroup s.batchSize env.groups
    let allMoves :=
      if groupMoves.length = 0 then schedulerGlobal env.globalEnv else groupMoves
    { state :=
        { s with
          forceBalance := s.batchSize ≤ allMoves.length
          lastRebalanceTime := env.now }
      moves := allMoves
      ranSchedule := true
      ranGlobal := groupMoves.length = 0
      nextCheck := env.now + s.checkBalanceInterval }

/-! ### Concrete inputs used by the witness theorems -/

/-- A gc manager state used to instantiate the gc theorems. -/
def gcWitState : GcManagerState :=
  { gcTTL := 1, lastUpdatedTime := 0, lastSucceededTime := 0
    lastSafePointTs := 7, isTiCDCBlockGC := false }

/-- A global-phase environment in which the global balance does nothing. -/
def balWitGlobalEnv : GlobalEnv :=
  { numNodes := 1, checkTotal := 0, groupNodeTasks := [], valid := false
    addOK := fun _ _ => true }

/-- A balance scheduler state: batch size 1, no force flag, interval 5. -/
def balWitState : ExecState :=
  { batchSize := 1, forceBalance := false, lastRebalanceTime := 0
    checkBalanceInterval := 5 }

/-- A tick environment with one in-flight operator. -/
def balWitEnvUnstable : ExecEnv :=
  { now := 10, operatorSize := 1, absentSize := 0, groups := []
    globalEnv := balWitGlobalEnv }

/-- A stable tick environment whose single group yields one move. -/
def balWitEnvSched : ExecEnv :=
  { now := 10, operatorSize := 0, absentSize := 0
    groups := [{ check := 1, balanceMoves := [{ task := 1, dest := 2 }] }]
    globalEnv := balWitGlobalEnv }

/-- A stable tick environment arriving before the balance interval elapsed. -/
def balWitEnvSoon : ExecEnv :=
  { now := 11, operatorSize := 0, absentSize := 0, groups := []
    globalEnv := balWitGlobalEnv }

/-! ## Helper lemmas -/

lemma bytesCompare_zero_iff : ∀ as bs : List Nat, bytesCompare as bs = 0 ↔ as = bs := by
  intro as
  induction as with
  | nil =>
      intro bs
      cases bs with
      | nil => simp [bytesCompare]
      | cons b bs => simp [bytesCompare]
  | cons a as ih =>
      intro bs
      cases bs with
      | nil => simp [bytesCompare]
      | cons b bs =>
          unfold bytesCompare
          by_cases hab : a < b
          · simp [hab]
            omega
          · by_cases hba : b < a
            · simp [hab, hba]
              omega
            · have heq : a = b := by omega
              subst heq
              simp [hab, hba, ih bs]

lemma bytesCompare_neg_iff : ∀ as bs : List Nat,
    bytesCompare as bs = -1 ↔ List.Lex (· < ·) as bs := by
  intro as
  induction as with
  | nil =>
      intro bs
      cases bs with
      | nil =>
          simp [bytesCompare]
      | cons b bs =>
          simp [bytesCompare]
          exact List.Lex.nil
  | cons a as ih =>
      intro bs
      cases bs with
      | nil =>
          simp [bytesCompare]
      | cons b bs =>
          unfold bytesCompare
          by_cases hab : a < b
          · simp [hab]
            exact List.Lex.rel hab
          · by_cases hba : b < a
            · simp [hab, hba]
              intro h
              cases h with
              | cons h2 => omega
              | rel h2 => omega
            · have heq : a = b := by omega
              subst heq
              simp [hab, hba, ih bs]
              constructor
              · exact fun h2 => List.Lex.cons h2
              · intro h2
                cases h2 with
                | cons h3 => exact h3
                | rel h3 => omega

lemma bytesCompare_swap : ∀ as bs : List Nat,
    bytesCompare bs as = -bytesCompare as bs := by
  intro as
  induction as with
  | nil =>
      intro bs
      cases bs with
      | nil => simp [bytesCompare]
      | cons b bs => simp [bytesCompare]
  | cons a as ih =>
      intro bs
      cases bs with
      | nil => simp [bytesCompare]
      | cons b bs =>
          unfold bytesCompare
          by_cases hab : a < b
          · simp [hab, Nat.lt_asymm hab]
          · by_cases hba : b < a
            · simp [hab, hba]
            · simp [hab, hba, ih bs]

/-! ## Claim theorems -/

/-- C1 (corrected): for positive startTs, `EnsureChangefeedStartTsSafety`
returns the fatal `ErrStartTsBeforeGC` exactly when
`startTs < minServiceGCTs + 1` (uint64 arithmetic), and returns nil when
`startTs ≥ minServiceGCTs + 1` and the push succeeded. The claim as frozen
omits the `startTs > 0` guard; see the counterexample. -/
theorem ensure_startTs_guard (minServiceGCTs startTs : Nat) (hpos : 0 < startTs) :
    (startTs < (minServiceGCTs + 1) % UINT64_MOD →
      EnsureChangefeedStartTsSafety (.ok minServiceGCTs) startTs = .startTsBeforeGC) ∧
    ((minServiceGCTs + 1) % UINT64_MOD ≤ startTs →
      EnsureChangefeedStartTsSafety (.ok minServiceGCTs) startTs = .ok) := by
  constructor
  · intro h
    simp only [EnsureChangefeedStartTsSafety]
    rw [if_pos ⟨hpos, h⟩]
  · intro h
    simp only [EnsureChangefeedStartTsSafety]
    rw [if_neg]
    intro hc
    omega

/-- C1 counterexample: at `startTs = 0` and `minServiceGCTs = 5`, the
premise `startTs < minServiceGCTs + 1` holds yet the function returns nil,
not `ErrStartTsBeforeGC`, because of the `startTs > 0` guard. -/
theorem ensure_startTs_guard_counterexample :
    0 < (5 + 1) % UINT64_MOD ∧
    EnsureChangefeedStartTsSafety (.ok 5) 0 = .ok := by
  constructor
  · decide
  · rfl

/-- C1 witness: at `startTs = 1`, `minServiceGCTs = 5` the guard fires. -/
theorem ensure_startTs_guard_witness :
    EnsureChangefeedStartTsSafety (.ok 5) 1 = .startTsBeforeGC :=
  (ensure_startTs_guard 5 1 (by decide)).1 (by decide)

/-- C9: with `startTs = 0` the GC-overrun guard is skipped entirely:
whatever the push returns, the result is never `ErrStartTsBeforeGC`. -/
theorem ensure_startTs_zero_skips_guard (pushResult : Except Unit Nat) :
    EnsureChangefeedStartTsSafety pushResult 0 ≠ .startTsBeforeGC := by
  cases pushResult with
  | error e => simp [EnsureChangefeedStartTsSafety]
  | ok minServiceGCTs =>
      simp only [EnsureChangefeedStartTsSafety]
      have hneg : ¬(0 < 0 ∧ 0 < (minServiceGCTs + 1) % UINT64_MOD) := by omega
      rw [if_neg hneg]
      simp

/-- C8: `StartCompare` treats the empty key as negative infinity and
`EndCompare` treats it as positive infinity; on two non-empty keys both
agree with `bytesCompare`, which is exactly the strict lexicographic order
on byte lists. -/
theorem span_compare_empty_infinity :
    (StartCompare [] [] = 0 ∧ EndCompare [] [] = 0) ∧
    (∀ b bs, StartCompare [] (b :: bs) = -1 ∧ EndCompare [] (b :: bs) = 1) ∧
    (∀ a as, StartCompare (a :: as) [] = 1 ∧ EndCompare (a :: as) [] = -1) ∧
    (∀ a as b bs,
      StartCompare (a :: as) (b :: bs) = bytesCompare (a :: as) (b :: bs) ∧
      EndCompare (a :: as) (b :: bs) = bytesCompare (a :: as) (b :: bs)) ∧
    (∀ as bs : List Nat,
      (bytesCompare as bs = -1 ↔ List.Lex (· < ·) as bs) ∧
      (bytesCompare as bs = 0 ↔ as = bs) ∧
      (bytesCompare as bs = 1 ↔ List.Lex (· < ·) bs as)) := by
  refine ⟨⟨rfl, rfl⟩, ?_, ?_, ?_, ?_⟩
  · intro b bs
    constructor <;> simp [StartCompare, EndCompare]
  · intro a as
    constructor <;> simp [StartCompare, EndCompare]
  · intro a as b bs
    constructor <;> simp [StartCompare, EndCompare]
  · intro as bs
    refine ⟨bytesCompare_neg_iff as bs, bytesCompare_zero_iff as bs, ?_⟩
    rw [bytesCompare_swap bs as, neg_eq_iff_eq_neg]
    exact bytesCompare_neg_iff bs as

/-- C4: when the safepoint push inside `TryUpdateGCSafePoint` is reached
and fails, the call surfaces `ErrUpdateServiceSafepointFailed` exactly when
at least `gcTTL` seconds have elapsed since the last successful push, and
absorbs the failure (returns nil) when less than one TTL has elapsed. -/
theorem try_update_gc_safepoint_failure (m : GcManagerState)
    (now checkpointTs : Nat) (forceUpdate : Bool)
    (hgate : ¬(now - m.lastUpdatedTime < gcSafepointUpdateInterval ∧
      forceUpdate = false)) :
    ((TryUpdateGCSafePoint m now checkpointTs forceUpdate (.error ())).err =
        some .errUpdateServiceSafepointFailed ↔
      nsPerSecond * m.gcTTL ≤ now - m.lastSucceededTime) ∧
    (now - m.lastSucceededTime < nsPerSecond * m.gcTTL →
      (TryUpdateGCSafePoint m now checkpointTs forceUpdate (.error ())).err =
        none) := by
  simp only [TryUpdateGCSafePoint]
  rw [if_neg hgate]
  by_cases h : nsPerSecond * m.gcTTL ≤ now - m.lastSucceededTime
  · rw [if_pos h]
    constructor
    · simp [h]
    · intro h2
      omega
  · rw [if_neg h]
    constructor
    · simp [h]
    · intro _
      rfl

/-- C4 witness: with the TTL at 1 second, a failed push 2 seconds after
the last success returns the safepoint error. -/
theorem try_update_gc_safepoint_failure_witness :
    (TryUpdateGCSafePoint gcWitState (2 * nsPerSecond) 5 true (.error ())).err =
      some .errUpdateServiceSafepointFailed :=
  (try_update_gc_safepoint_failure gcWitState (2 * nsPerSecond) 5 true
    (by simp)).1.mpr (by decide)

/-- C5: a non-forced call less than `gcSafepointUpdateInterval` after the
previous attempt returns nil without reaching the PD push and with the
manager state unchanged, while a forced call always reaches the push. -/
theorem try_update_gc_safepoint_throttle :
    (∀ (m : GcManagerState) (now checkpointTs : Nat)
        (pushResult : Except Unit Nat),
      now - m.lastUpdatedTime < gcSafepointUpdateInterval →
      TryUpdateGCSafePoint m now checkpointTs false pushResult =
        { state := m, err := none, pushed := false }) ∧
    (∀ (m : GcManagerState) (now checkpointTs : Nat)
        (pushResult : Except Unit Nat),
      (TryUpdateGCSafePoint m now checkpointTs true pushResult).pushed = true) := by
  constructor
  · intro m now checkpointTs pushResult h
    simp only [TryUpdateGCSafePoint]
    rw [if_pos ⟨h, trivial⟩]
  · intro m now checkpointTs pushResult
    simp only [TryUpdateGCSafePoint]
    rw [if_neg (by simp)]
    cases pushResult with
    | error e =>
        by_cases h : nsPerSecond * m.gcTTL ≤ now - m.lastSucceededTime
        · rw [if_pos h]
        · rw [if_neg h]
    | ok actual => rfl

/-- C5 witness: a non-forced call at the instant of the last update is
skipped whole; a forced call at the same instant reaches the push. -/
theorem try_update_gc_safepoint_throttle_witness :
    TryUpdateGCSafePoint gcWitState 0 5 false (.ok 3) =
      { state := gcWitState, err := none, pushed := false } ∧
    (TryUpdateGCSafePoint gcWitState 0 5 true (.ok 3)).pushed = true :=
  ⟨try_update_gc_safepoint_throttle.1 gcWitState 0 5 (.ok 3) (by decide),
   try_update_gc_safepoint_throttle.2 gcWitState 0 5 (.ok 3)⟩

/-- C10: `CheckStaleCheckpointTs` computes the upper bound as
`checkpointTs - 1` in uint64 arithmetic, so at `checkpointTs = 0` it wraps
to `2^64 - 1`; hence with `isTiCDCBlockGC = false` the call returns nil for
`checkpointTs = 0` whatever the (uint64) `lastSafePointTs` is. -/
theorem check_stale_checkpoint_ts_zero_wraps (m : GcManagerState)
    (pdTimeNs : Int) (hblock : m.isTiCDCBlockGC = false)
    (hrange : m.lastSafePointTs < UINT64_MOD) :
    gcSafepointUpperBound 0 = UINT64_MOD - 1 ∧
    CheckStaleCheckpointTs m pdTimeNs 0 = none := by
  have hb : gcSafepointUpperBound 0 = UINT64_MOD - 1 := by
    simp only [gcSafepointUpperBound, UINT64_MOD]
    norm_num
  refine ⟨hb, ?_⟩
  simp only [CheckStaleCheckpointTs, hblock]
  rw [if_neg (by simp), if_neg]
  rw [hb]
  omega

/-- C10 witness: a manager not blocking GC, with a positive last safepoint,
accepts checkpointTs 0. -/
theorem check_stale_checkpoint_ts_zero_wraps_witness :
    CheckStaleCheckpointTs gcWitState 0 0 = none :=
  (check_stale_checkpoint_ts_zero_wraps gcWitState 0 (by decide) (by decide)).2

lemma execute_ranSchedule_of_force (s2 : ExecState) (env2 : ExecEnv)
    (hforce : s2.forceBalance = true) (hop2 : env2.operatorSize = 0)
    (habs2 : env2.absentSize = 0) :
    (Execute s2 env2).ranSchedule = true := by
  simp only [Execute]
  rw [if_neg (by simp [hforce]), if_neg (by omega)]

lemma execute_stable_eq (s : ExecState) (env : ExecEnv)
    (hgate : ¬(s.forceBalance = false ∧
      env.now - s.lastRebalanceTime < s.checkBalanceInterval))
    (hop : env.operatorSize = 0) (habs : env.absentSize = 0) :
    Execute s env =
      { state :=
          { s with
            forceBalance := decide (s.batchSize ≤
              (if (schedulerGroup s.batchSize env.groups).length = 0 then
                schedulerGlobal env.globalEnv
              else schedulerGroup s.batchSize env.groups).length)
            lastRebalanceTime := env.now }
        moves :=
          if (schedulerGroup s.batchSize env.groups).length = 0 then
            schedulerGlobal env.globalEnv
          else schedulerGroup s.batchSize env.groups
        ranSchedule := true
        ranGlobal := decide ((schedulerGroup s.batchSize env.groups).length = 0)
        nextCheck := env.now + s.checkBalanceInterval } := by
  simp only [Execute]
  rw [if_neg hgate, if_neg (by omega)]

/-- C2: whenever an operator is in flight or a span is absent, an `Execute`
tick emits no `MoveDispatcher` operator, skips both scheduling phases and
leaves the scheduler state untouched. -/
theorem balance_skip_when_unstable (s : ExecState) (env : ExecEnv)
    (h : 0 < env.operatorSize ∨ 0 < env.absentSize) :
    (Execute s env).moves = [] ∧ (Execute s env).ranSchedule = false ∧
    (Execute s env).ranGlobal = false ∧ (Execute s env).state = s ∧
    ((Execute s env).nextCheck = s.lastRebalanceTime + s.checkBalanceInterval ∨
      (Execute s env).nextCheck = env.now + s.checkBalanceInterval) := by
  by_cases h1 : s.forceBalance = false ∧
      env.now - s.lastRebalanceTime < s.checkBalanceInterval
  · simp only [Execute]
    rw [if_pos h1]
    exact ⟨rfl, rfl, rfl, rfl, Or.inl rfl⟩
  · simp only [Execute]
    rw [if_neg h1, if_pos h]
    exact ⟨rfl, rfl, rfl, rfl, Or.inr rfl⟩

/-- C2 witness: one in-flight operator makes the tick a no-op. -/
theorem balance_skip_when_unstable_witness :
    (Execute balWitState balWitEnvUnstable).moves = [] ∧
    (Execute balWitState balWitEnvUnstable).ranSchedule = false ∧
    (Execute balWitState balWitEnvUnstable).ranGlobal = false ∧
    (Execute balWitState balWitEnvUnstable).state = balWitState ∧
    ((Execute balWitState balWitEnvUnstable).nextCheck =
        balWitState.lastRebalanceTime + balWitState.checkBalanceInterval ∨
      (Execute balWitState balWitEnvUnstable).nextCheck =
        balWitEnvUnstable.now + balWitState.checkBalanceInterval) :=
  balance_skip_when_unstable balWitState balWitEnvUnstable (Or.inl (by decide))

/-- C3: in a tick that reaches the scheduling phases, the global phase runs
exactly when the group phase moved nothing, and whenever the group phase
moved at least one span the tick's moves are the group moves alone. -/
theorem balance_global_only_when_group_idle (s : ExecState) (env : ExecEnv)
    (hgate : ¬(s.forceBalance = false ∧
      env.now - s.lastRebalanceTime < s.checkBalanceInterval))
    (hop : env.operatorSize = 0) (habs : env.absentSize = 0) :
    ((Execute s env).ranGlobal = true ↔
      schedulerGroup s.batchSize env.groups = []) ∧
    (schedulerGroup s.batchSize env.groups ≠ [] →
      (Execute s env).moves = schedulerGroup s.batchSize env.groups ∧
      (Execute s env).ranGlobal = false) := by
  rw [execute_stable_eq s env hgate hop habs]
  by_cases hg : schedulerGroup s.batchSize env.groups = []
  · constructor
    · simp [hg]
    · intro h
      exact absurd hg h
  · have hlen : (schedulerGroup s.batchSize env.groups).length ≠ 0 := by
      simpa [List.length_eq_zero] using hg
    constructor
    · simp [hg, hlen]
    · intro _
      constructor
      · simp [hlen]
      · simp [hlen]

/-- C3 witness: a tick whose single group moves one span runs no global
phase and reports exactly the group moves. -/
theorem balance_global_only_when_group_idle_witness :
    (Execute balWitState balWitEnvSched).moves =
      schedulerGroup balWitState.batchSize balWitEnvSched.groups ∧
    (Execute balWitState balWitEnvSched).ranGlobal = false :=
  (balance_global_only_when_group_idle balWitState balWitEnvSched
    (by decide) rfl rfl).2 (by decide)

/-- C6: in a tick that reaches the scheduling phases, moving exactly
`batchSize` spans sets `forceBalance`, and the immediately following tick
then schedules even before `checkBalanceInterval` has elapsed, while moving
fewer than `batchSize` spans clears `forceBalance`. -/
theorem balance_force_on_full_batch (s : ExecState) (env : ExecEnv)
    (hsched : (Execute s env).ranSchedule = true) :
    ((Execute s env).moves.length = s.batchSize →
      (Execute s env).state.forceBalance = true ∧
      (∀ env2 : ExecEnv, env2.operatorSize = 0 → env2.absentSize = 0 →
        env2.now - (Execute s env).state.lastRebalanceTime <
          (Execute s env).state.checkBalanceInterval →
        (Execute (Execute s env).state env2).ranSchedule = true)) ∧
    ((Execute s env).moves.length < s.batchSize →
      (Execute s env).state.forceBalance = false) := by
  by_cases h1 : s.forceBalance = false ∧
      env.now - s.lastRebalanceTime < s.checkBalanceInterval
  · simp only [Execute] at hsched
    rw [if_pos h1] at hsched
    exact absurd hsched (by simp)
  · by_cases h2 : 0 < env.operatorSize ∨ 0 < env.absentSize
    · simp only [Execute] at hsched
      rw [if_neg h1, if_pos h2] at hsched
      exact absurd hsched (by simp)
    · have hop : env.operatorSize = 0 := by omega
      have habs : env.absentSize = 0 := by omega
      rw [execute_stable_eq s env h1 hop habs]
      dsimp only
      constructor
      · intro hfull
        constructor
        · simp only [decide_eq_true_eq]
          omega
        · intro env2 hop2 habs2 _
          apply execute_ranSchedule_of_force _ env2 _ hop2 habs2
          dsimp only
          simp only [decide_eq_true_eq]
          omega
      · intro hlt
        simp only [decide_eq_false_iff_not]
        omega

/-- C6 witness: a full batch of one move sets the force flag, and the next
tick one instant later schedules despite the 5-unit interval. -/
theorem balance_force_on_full_batch_witness :
    (Execute balWitState balWitEnvSched).state.forceBalance = true ∧
    (Execute (Execute balWitState balWitEnvSched).state balWitEnvSoon).ranSchedule
      = true :=
  ⟨((balance_force_on_full_batch balWitState balWitEnvSched (by decide)).1
      (by decide)).1,
   ((balance_force_on_full_batch balWitState balWitEnvSched (by decide)).1
      (by decide)).2 balWitEnvSoon rfl rfl (by decide)⟩

/-- C7: with the flag present and not the literal "now", `validateParams`
rejects an unparseable or zero `--overwrite-checkpoint-ts` with the
invalid-checkpoint error, rejects a value above the current source TSO with
the in-future error, and accepts any other value; the literal "now" is
replaced by the current source TSO. -/
theorem resume_overwrite_checkpoint_validation :
    (∀ (s : String) (tsoTimestamp tsoLogicTime : Nat),
      s.length ≠ 0 → strToLower s ≠ "now" →
      (parseUint64 s = none →
        validateParams s tsoTimestamp tsoLogicTime = .errCliInvalidCheckpointTs) ∧
      (parseUint64 s = some 0 →
        validateParams s tsoTimestamp tsoLogicTime = .errCliInvalidCheckpointTs) ∧
      (∀ v, parseUint64 s = some v → 0 < v →
        composeTS tsoTimestamp tsoLogicTime < v →
        validateParams s tsoTimestamp tsoLogicTime =
          .errCliCheckpointTsIsInFuture) ∧
      (∀ v, parseUint64 s = some v → 0 < v →
        v ≤ composeTS tsoTimestamp tsoLogicTime →
        validateParams s tsoTimestamp tsoLogicTime = .accepted v)) ∧
    (∀ (s : String) (tsoTimestamp tsoLogicTime : Nat),
      strToLower s = "now" →
      validateParams s tsoTimestamp tsoLogicTime =
        .accepted (composeTS tsoTimestamp tsoLogicTime)) := by
  constructor
  · intro s tsoTimestamp tsoLogicTime hlen hnow
    simp only [validateParams]
    rw [if_neg hlen, if_neg hnow]
    refine ⟨?_, ?_, ?_, ?_⟩
    · intro hp
      rw [hp]
    · intro hp
      rw [hp]
      rfl
    · intro v hp hvpos hfut
      rw [hp]
      simp only
      rw [if_neg (by omega), if_pos hfut]
    · intro v hp hvpos hle
      rw [hp]
      simp only
      rw [if_neg (by omega), if_neg (by omega)]
  · intro s tsoTimestamp tsoLogicTime hnow
    obtain ⟨data⟩ := s
    cases data with
    | nil => exact absurd hnow (by decide)
    | cons c cs =>
        simp only [validateParams]
        rw [if_neg (by simp [String.length]), if_pos hnow]

/-- C7 witness: the literal value "0" is rejected as invalid and "NOW" is
replaced by the composed source TSO. -/
theorem resume_overwrite_checkpoint_validation_witness :
    validateParams "0" 3 4 = .errCliInvalidCheckpointTs ∧
    validateParams "NOW" 3 4 = .accepted (composeTS 3 4) :=
  ⟨(resume_overwrite_checkpoint_validation.1 "0" 3 4 (by decide)
      (by decide)).2.1 (by decide),
   resume_overwrite_checkpoint_validation.2 "NOW" 3 4 (by decide)⟩
